import Mathlib

/-!
Verification of the synchronization/coordination core specified for the
`metavision_driver` multi-camera launch configuration (`launch/zrh01.launch.py`).

The repository's source contains the launch configuration only; the readiness
handshake coordinator, topology validation and shared event bus are specified
but their implementation is not part of the repository sources.  Those parts
are therefore modelled from the specification text (each such definition says
so in its doc comment); the launch configuration itself is embedded directly
from `launch/zrh01.launch.py`.
-/

/-! ## Readiness Handshake Coordinator (modelled from the spec) -/

/-- Modelled from the spec: per-session mutable `HandshakeState` of the
Readiness Handshake Coordinator (§3, §4.3), whose implementation is not in the
repository sources.  It records the expected set of secondary indices
(`register_expected`), the set of secondary indices that have signaled ready,
and a sticky `released` flag that becomes true the instant the recorded-ready
set equals the expected set. -/
structure HandshakeState where
  expected : Finset ℕ
  ready : Finset ℕ
  released : Bool
deriving DecidableEq

/-- Modelled from the spec: the state created by `register_expected(indices)`
at session start — no secondary has signaled yet, and the primary is released
from the start only in the degenerate case of an empty expected set (the ready
set already equals the expected set the instant the session begins). -/
def HandshakeState.init (e : Finset ℕ) : HandshakeState :=
  { expected := e, ready := ∅, released := decide ((∅ : Finset ℕ) = e) }

/-- Modelled from the spec: `on_ready(index)` (§4.3) — records `index` as
ready (idempotently), and sets the sticky `released` flag the instant the
recorded-ready set equals the expected set. -/
def onReady (i : ℕ) (s : HandshakeState) : HandshakeState :=
  { s with
    ready := insert i s.ready,
    released := s.released || decide (insert i s.ready = s.expected) }

/-- Run the coordinator from state `s` over a sequence of `on_ready` calls. -/
def runFrom (s : HandshakeState) (calls : List ℕ) : HandshakeState :=
  calls.foldl (fun t i => onReady i t) s

theorem runFrom_nil (s : HandshakeState) : runFrom s [] = s := rfl

theorem runFrom_append (s : HandshakeState) (l₁ l₂ : List ℕ) :
    runFrom s (l₁ ++ l₂) = runFrom (runFrom s l₁) l₂ :=
  List.foldl_append _ _ _ _

theorem runFrom_concat (s : HandshakeState) (l : List ℕ) (a : ℕ) :
    runFrom s (l ++ [a]) = onReady a (runFrom s l) :=
  runFrom_append s l [a]

theorem expected_runFrom (s : HandshakeState) (l : List ℕ) :
    (runFrom s l).expected = s.expected := by
  induction l generalizing s with
  | nil => rfl
  | cons a l ih => exact ih (onReady a s)

theorem ready_runFrom (s : HandshakeState) (l : List ℕ) :
    (runFrom s l).ready = s.ready ∪ l.toFinset := by
  induction l generalizing s with
  | nil => simp [runFrom]
  | cons a l ih =>
    show (runFrom (onReady a s) l).ready = _
    rw [ih]
    simp only [onReady, List.toFinset_cons]
    ext x
    simp only [Finset.mem_union, Finset.mem_insert]
    tauto

theorem ready_runFrom_init (e : Finset ℕ) (l : List ℕ) :
    (runFrom (HandshakeState.init e) l).ready = l.toFinset := by
  rw [ready_runFrom]
  simp [HandshakeState.init]

/-- C5: `on_ready` is idempotent on `HandshakeState` — applying it twice with
the same index yields exactly the same state as applying it once (a duplicate
ready signal is absorbed, not an error: `onReady` is a total function). -/
theorem onReady_idempotent (i : ℕ) (s : HandshakeState) :
    onReady i (onReady i s) = onReady i s := by
  simp only [onReady, Finset.insert_idem]
  cases h : decide (insert i s.ready = s.expected) <;>
    cases s.released <;> simp [h]

theorem init_expected (e : Finset ℕ) : (HandshakeState.init e).expected = e := rfl

theorem init_ready (e : Finset ℕ) : (HandshakeState.init e).ready = ∅ := rfl

theorem released_runFrom_init (e : Finset ℕ) (l : List ℕ) (hmem : ∀ i ∈ l, i ∈ e) :
    (runFrom (HandshakeState.init e) l).released = decide (l.toFinset = e) := by
  induction l using List.reverseRecOn with
  | nil => simp [runFrom, HandshakeState.init]
  | append_singleton l a ih =>
    have ha : a ∈ e := hmem a (by simp)
    have hml : ∀ i ∈ l, i ∈ e := fun i hi => hmem i (by simp [hi])
    rw [runFrom_concat]
    simp only [onReady, ih hml, expected_runFrom, ready_runFrom_init, init_expected]
    have htf : (l ++ [a]).toFinset = insert a l.toFinset := by
      ext x; simp [or_comm]
    rw [htf]
    by_cases hq : insert a l.toFinset = e
    · simp [hq]
    · have hp : ¬(l.toFinset = e) := by
        intro hp
        apply hq
        rw [hp]
        exact Finset.insert_eq_self.mpr ha
      simp [hp, hq]

theorem subset_of_released_runFrom_init (e : Finset ℕ) (l : List ℕ)
    (h : (runFrom (HandshakeState.init e) l).released = true) : e ⊆ l.toFinset := by
  induction l using List.reverseRecOn with
  | nil =>
    simp only [runFrom_nil, HandshakeState.init, decide_eq_true_eq] at h
    rw [← h]
    simp
  | append_singleton l a ih =>
    rw [runFrom_concat] at h
    simp only [onReady, Bool.or_eq_true, decide_eq_true_eq, expected_runFrom,
      ready_runFrom_init, init_expected] at h
    have htf : (l ++ [a]).toFinset = insert a l.toFinset := by
      ext x; simp [or_comm]
    rw [htf]
    rcases h with h | h
    · exact fun x hx => Finset.mem_insert_of_mem (ih h hx)
    · rw [← h]

theorem toFinset_take_eq_of_le (e : Finset ℕ) (calls : List ℕ)
    (hmem : ∀ i ∈ calls, i ∈ e) {m n : ℕ} (hmn : m ≤ n)
    (h : (calls.take m).toFinset = e) : (calls.take n).toFinset = e := by
  apply Finset.Subset.antisymm
  · intro x hx
    simp only [List.mem_toFinset] at hx
    exact hmem x (List.take_subset n calls hx)
  · intro x hx
    rw [← h] at hx
    simp only [List.mem_toFinset] at hx ⊢
    have hmm : calls.take m = (calls.take n).take m := by
      rw [List.take_take, Nat.min_eq_left hmn]
    rw [hmm] at hx
    exact List.take_subset m (calls.take n) hx

/-- C1: for every expected set of secondary indices and every `on_ready` call
sequence covering exactly those indices (any permutation, duplicates allowed),
the coordinator's `released` flag is false exactly while the recorded-ready
set differs from the expected set, and there is exactly one call step at which
the flag turns true — the call after which the recorded-ready set first equals
the expected set; the flag never turns true before it and never a second
time. -/
theorem coordinator_releases_exactly_once (e : Finset ℕ) (calls : List ℕ)
    (hmem : ∀ i ∈ calls, i ∈ e) (hcover : e ⊆ calls.toFinset) (hne : e.Nonempty) :
    (∀ n, (runFrom (HandshakeState.init e) (calls.take n)).released
        = decide ((calls.take n).toFinset = e)) ∧
    ∃ j, j < calls.length ∧
      (∀ k, ((runFrom (HandshakeState.init e) (calls.take k)).released = false ∧
          (runFrom (HandshakeState.init e) (calls.take (k + 1))).released = true) ↔ k = j) ∧
      (calls.take (j + 1)).toFinset = e ∧ (calls.take j).toFinset ≠ e := by
  have part1 : ∀ n, (runFrom (HandshakeState.init e) (calls.take n)).released
      = decide ((calls.take n).toFinset = e) :=
    fun n => released_runFrom_init e (calls.take n)
      (fun i hi => hmem i (List.take_subset n calls hi))
  refine ⟨part1, ?_⟩
  have hPlen : (calls.take calls.length).toFinset = e := by
    rw [List.take_length]
    exact Finset.Subset.antisymm
      (fun x hx => hmem x (List.mem_toFinset.mp hx)) hcover
  have hex : ∃ n, (calls.take n).toFinset = e := ⟨calls.length, hPlen⟩
  obtain ⟨j0, hj0P, hj0min⟩ :
      ∃ j0, (calls.take j0).toFinset = e ∧ ∀ m < j0, (calls.take m).toFinset ≠ e :=
    ⟨Nat.find hex, Nat.find_spec hex, fun m hm => Nat.find_min hex hm⟩
  have hj0le : j0 ≤ calls.length := by
    by_contra hgt
    push_neg at hgt
    exact hj0min calls.length hgt hPlen
  have hj0pos : 0 < j0 := by
    rcases Nat.eq_zero_or_pos j0 with h | h
    · exfalso
      rw [h] at hj0P
      simp only [List.take_zero, List.toFinset_nil] at hj0P
      exact Finset.nonempty_iff_ne_empty.mp hne hj0P.symm
    · exact h
  have hchar : ∀ n, (calls.take n).toFinset = e ↔ j0 ≤ n := by
    intro n
    constructor
    · intro h
      by_contra hlt
      push_neg at hlt
      exact hj0min n hlt h
    · intro h
      exact toFinset_take_eq_of_le e calls hmem h hj0P
  refine ⟨j0 - 1, by omega, ?_, ?_, ?_⟩
  · intro k
    rw [part1 k, part1 (k + 1)]
    simp only [decide_eq_false_iff_not, decide_eq_true_eq, hchar]
    omega
  · rw [hchar]
    omega
  · simp only [ne_eq, hchar]
    omega

/-- Concrete instance of `coordinator_releases_exactly_once`: expected set
`{0, 1}`, call sequence `[0, 0, 1]` (a permutation with a duplicate). -/
theorem coordinator_releases_exactly_once_witness :
    (∀ i ∈ ([0, 0, 1] : List ℕ), i ∈ ({0, 1} : Finset ℕ)) ∧
    ({0, 1} : Finset ℕ) ⊆ ([0, 0, 1] : List ℕ).toFinset ∧
    ({0, 1} : Finset ℕ).Nonempty ∧
    ((∀ n, (runFrom (HandshakeState.init {0, 1}) (([0, 0, 1] : List ℕ).take n)).released
        = decide ((([0, 0, 1] : List ℕ).take n).toFinset = ({0, 1} : Finset ℕ))) ∧
    ∃ j, j < ([0, 0, 1] : List ℕ).length ∧
      (∀ k, ((runFrom (HandshakeState.init {0, 1})
              (([0, 0, 1] : List ℕ).take k)).released = false ∧
          (runFrom (HandshakeState.init {0, 1})
              (([0, 0, 1] : List ℕ).take (k + 1))).released = true) ↔ k = j) ∧
      (([0, 0, 1] : List ℕ).take (j + 1)).toFinset = ({0, 1} : Finset ℕ) ∧
      (([0, 0, 1] : List ℕ).take j).toFinset ≠ ({0, 1} : Finset ℕ)) :=
  ⟨by decide, by decide, by decide,
    coordinator_releases_exactly_once {0, 1} [0, 0, 1] (by decide) (by decide) (by decide)⟩

/-! ## Session transition system: coordinator plus primary (modelled from the spec) -/

/-- Modelled from the spec: the session-visible state of the coordination core
(§4.2, §4.3, §5) — the Coordinator's `HandshakeState` together with whether
the Primary node has fired (armed) the shared hardware trigger.  The Primary
node's own implementation is not in the repository sources. -/
structure SessionState where
  coord : HandshakeState
  primaryFired : Bool
deriving DecidableEq

/-- Modelled from the spec: session start — fresh coordinator state, trigger
not fired. -/
def SessionState.init (e : Finset ℕ) : SessionState :=
  { coord := HandshakeState.init e, primaryFired := false }

/-- Modelled from the spec: one interleaved step of the session (§5).  A
secondary with an expected index may signal ready at any time (`ready`), and
the Primary may fire the trigger only once the Coordinator has released it
(`fire`). -/
inductive SessionStep : SessionState → SessionState → Prop
  | ready (i : ℕ) (s : SessionState) (h : i ∈ s.coord.expected) :
      SessionStep s { s with coord := onReady i s.coord }
  | fire (s : SessionState) (h : s.coord.released = true) :
      SessionStep s { s with primaryFired := true }

/-- States reachable from session start by any interleaving of node steps. -/
inductive ReachableSession (e : Finset ℕ) : SessionState → Prop
  | init : ReachableSession e (SessionState.init e)
  | step {s s' : SessionState} :
      ReachableSession e s → SessionStep s s' → ReachableSession e s'

theorem session_invariant (e : Finset ℕ) (s : SessionState)
    (h : ReachableSession e s) :
    s.coord.expected = e ∧ s.coord.ready ⊆ e ∧
    (s.coord.released = true → s.coord.ready = e) ∧
    (s.primaryFired = true → s.coord.released = true) := by
  induction h with
  | init =>
    refine ⟨rfl, by simp [SessionState.init, HandshakeState.init], ?_, ?_⟩
    · intro hr
      simp only [SessionState.init, HandshakeState.init, decide_eq_true_eq] at hr ⊢
      exact hr
    · intro hf
      simp [SessionState.init] at hf
  | step _ hstep ih =>
    obtain ⟨ihe, ihsub, ihrel, ihfire⟩ := ih
    cases hstep with
    | ready i t hi =>
      rw [ihe] at hi
      refine ⟨ihe, ?_, ?_, ?_⟩
      · intro x hx
        rcases Finset.mem_insert.mp hx with hx | hx
        · rw [hx]; exact hi
        · exact ihsub hx
      · intro hr
        simp only [onReady, Bool.or_eq_true, decide_eq_true_eq] at hr
        simp only [onReady]
        rcases hr with hr | hr
        · rw [ihrel hr]
          exact Finset.insert_eq_self.mpr hi
        · rw [hr, ihe]
      · intro hf
        simp only [onReady, Bool.or_eq_true]
        exact Or.inl (ihfire hf)
    | fire t hrel =>
      exact ⟨ihe, ihsub, ihrel, fun _ => hrel⟩

/-- C2: in every reachable session state, if the Primary has fired its
trigger then the Coordinator's recorded-ready set contains every expected
secondary index — equivalently, the Primary never fires before the
Coordinator has released it, under every interleaving of node steps. -/
theorem primary_never_fires_before_all_ready (e : Finset ℕ) (s : SessionState)
    (h : ReachableSession e s) (hf : s.primaryFired = true) :
    e ⊆ s.coord.ready ∧ s.coord.released = true := by
  obtain ⟨_, _, hrel, hfire⟩ := session_invariant e s h
  have hr := hfire hf
  refine ⟨?_, hr⟩
  rw [hrel hr]

/-- Concrete instance of `primary_never_fires_before_all_ready`: with one
expected secondary (index 0), the session that records its ready signal and
then fires reaches a fired state whose ready set covers the expected set. -/
theorem primary_never_fires_before_all_ready_witness :
    ({0} : Finset ℕ) ⊆
      (SessionState.mk (onReady 0 (HandshakeState.init {0})) true).coord.ready ∧
    (SessionState.mk (onReady 0 (HandshakeState.init {0})) true).coord.released
      = true :=
  primary_never_fires_before_all_ready {0} _
    (ReachableSession.step
      (ReachableSession.step ReachableSession.init
        (SessionStep.ready 0 (SessionState.init {0}) (by decide)))
      (SessionStep.fire _ (by decide)))
    rfl

/-! ## Handshake timeout (modelled from the spec) -/

/-- Modelled from the spec: the session-level outcome surfaced by the
Coordinator (§4.3, §7).  `HandshakeTimeout` is reported when the deadline
expires without a release; its implementation is not in the repository
sources. -/
inductive SessionOutcome where
  | released
  | handshakeTimeout
deriving DecidableEq

/-- Modelled from the spec: the outcome of a session in which exactly the
calls in `arrived` were received before the configured deadline — the
Coordinator releases if the recorded-ready set reached the expected set, and
surfaces `HandshakeTimeout` otherwise (§4.3 timeout policy). -/
def sessionOutcome (e : Finset ℕ) (arrived : List ℕ) : SessionOutcome :=
  if (runFrom (HandshakeState.init e) arrived).released then
    SessionOutcome.released
  else
    SessionOutcome.handshakeTimeout

/-- C4: if some expected secondary index has not signaled ready by the
deadline (fewer than the K expected indices arrived), the Coordinator reports
`HandshakeTimeout`, and the `released` flag is false after every prefix of the
arrived calls — the Primary is never released in that session. -/
theorem handshake_timeout_never_released (e : Finset ℕ) (arrived : List ℕ)
    (h : ¬ e ⊆ arrived.toFinset) :
    sessionOutcome e arrived = SessionOutcome.handshakeTimeout ∧
    ∀ n, (runFrom (HandshakeState.init e) (arrived.take n)).released = false := by
  have hpre : ∀ n, (runFrom (HandshakeState.init e) (arrived.take n)).released = false := by
    intro n
    cases hrel : (runFrom (HandshakeState.init e) (arrived.take n)).released with
    | false => rfl
    | true =>
      exfalso
      apply h
      intro x hx
      have hsub := subset_of_released_runFrom_init e (arrived.take n) hrel hx
      simp only [List.mem_toFinset] at hsub ⊢
      exact List.take_subset n arrived hsub
  refine ⟨?_, hpre⟩
  have harr : (runFrom (HandshakeState.init e) arrived).released = false := by
    have := hpre arrived.length
    rwa [List.take_length] at this
  rw [sessionOutcome, harr]
  rfl

/-- Concrete instance of `handshake_timeout_never_released`: two expected
secondaries `{0, 1}`, only index 0 arrived before the deadline. -/
theorem handshake_timeout_never_released_witness :
    ¬ ({0, 1} : Finset ℕ) ⊆ ([0] : List ℕ).toFinset ∧
    (sessionOutcome {0, 1} [0] = SessionOutcome.handshakeTimeout ∧
      ∀ n, (runFrom (HandshakeState.init {0, 1}) (([0] : List ℕ).take n)).released
        = false) :=
  ⟨by decide, handshake_timeout_never_released {0, 1} [0] (by decide)⟩

/-! ## Shared Event Bus (modelled from the spec) -/

/-- Modelled from the spec: the Shared Event Bus (§4.4), whose implementation
is not in the repository sources.  `queues n` is the sequence of event-batch
payloads node `n` has produced, in production order; a delivery schedule is an
arbitrary interleaving choice (which producer's oldest pending batch the bus
hands to the consumer next).  `busDelivered` is the sequence the consumer
observes, each batch tagged with its producing node. -/
def busDelivered {α : Type} (queues : ℕ → List α) : List ℕ → List (ℕ × α)
  | [] => []
  | n :: sched =>
    match queues n with
    | [] => busDelivered queues sched
    | b :: rest =>
      (n, b) :: busDelivered (fun m => if m = n then rest else queues m) sched

/-- Modelled from the spec: the batches still pending (produced but not yet
delivered) for each node after the bus has run the given schedule. -/
def busRemaining {α : Type} (queues : ℕ → List α) : List ℕ → ℕ → List α
  | [] => queues
  | n :: sched =>
    match queues n with
    | [] => busRemaining queues sched
    | _ :: rest =>
      busRemaining (fun m => if m = n then rest else queues m) sched

/-- The subsequence of delivered batches that a consumer observes from the
single producing node `n`. -/
def observedFrom {α : Type} (n : ℕ) (delivered : List (ℕ × α)) : List α :=
  delivered.filterMap (fun p => if p.1 = n then some p.2 else none)

theorem observedFrom_append_busRemaining {α : Type} (sched : List ℕ)
    (queues : ℕ → List α) (n : ℕ) :
    observedFrom n (busDelivered queues sched) ++ busRemaining queues sched n
      = queues n := by
  induction sched generalizing queues with
  | nil => simp [busDelivered, busRemaining, observedFrom]
  | cons m sched ih =>
    cases hbr : queues m with
    | nil =>
      simp only [busDelivered, busRemaining, hbr]
      exact ih queues
    | cons b rest =>
      simp only [busDelivered, busRemaining, hbr]
      have h2 := ih (fun k => if k = m then rest else queues k)
      by_cases hmn : m = n
      · subst hmn
        rw [if_pos rfl] at h2
        have hobs : observedFrom m ((m, b) :: busDelivered
            (fun k => if k = m then rest else queues k) sched)
            = b :: observedFrom m (busDelivered
                (fun k => if k = m then rest else queues k) sched) := by
          simp [observedFrom]
        rw [hobs, List.cons_append, h2, hbr]
      · rw [if_neg (fun h => hmn h.symm)] at h2
        have hobs : observedFrom n ((m, b) :: busDelivered
            (fun k => if k = m then rest else queues k) sched)
            = observedFrom n (busDelivered
                (fun k => if k = m then rest else queues k) sched) := by
          simp [observedFrom, hmn]
        rw [hobs, h2]

/-- C6: for every assignment of produced batch sequences to nodes and every
delivery interleaving (schedule) that completely drains node `n`'s queue, the
sequence of batches a consumer observes from node `n` is exactly the sequence
node `n` produced, in production order — no reordering and no loss — while
the schedule interleaves other nodes' batches arbitrarily (no cross-node
ordering is imposed). -/
theorem bus_preserves_per_node_order {α : Type} (queues : ℕ → List α)
    (sched : List ℕ) (n : ℕ) (h : busRemaining queues sched n = []) :
    observedFrom n (busDelivered queues sched) = queues n := by
  have hsplit := observedFrom_append_busRemaining sched queues n
  rw [h, List.append_nil] at hsplit
  exact hsplit

/-- Concrete instance of `bus_preserves_per_node_order`: node 0 produces
`[10, 20]`, node 1 produces `[30]`, schedule `[0, 1, 0]` interleaves them;
the consumer observes exactly `[10, 20]` from node 0. -/
theorem bus_preserves_per_node_order_witness :
    busRemaining
        (fun m => if m = 0 then [10, 20] else if m = 1 then [30] else ([] : List ℕ))
        [0, 1, 0] 0 = [] ∧
    observedFrom 0 (busDelivered
        (fun m => if m = 0 then [10, 20] else if m = 1 then [30] else ([] : List ℕ))
        [0, 1, 0])
      = (fun m => if m = 0 then [10, 20] else if m = 1 then [30] else ([] : List ℕ)) 0 :=
  ⟨rfl, bus_preserves_per_node_order _ [0, 1, 0] 0 rfl⟩

/-! ## Topology Configuration (modelled from the spec) -/

/-- Modelled from the spec: a node's role in the topology (§3) — `Primary`
carries the declared `num_secondary_nodes`, `Secondary` carries its zero-based
`secondary_node_nr`. -/
inductive Role where
  | primary (num_secondary_nodes : ℕ)
  | secondary (secondary_node_nr : ℕ)
deriving DecidableEq

/-- Modelled from the spec: a NodeSpec-like input to Topology Configuration
(§4.1) — identity plus role; the remaining NodeSpec fields do not take part in
validation. -/
structure NodeSpecInput where
  name : String
  serial : String
  role : Role
deriving DecidableEq

/-- Modelled from the spec: the configuration-time error taxonomy entry
`InvalidTopology` (§7). -/
inductive TopologyError where
  | invalidTopology
deriving DecidableEq

/-- Modelled from the spec: a validated `Topology` (§3) — the ordered set of
node specs accepted by Topology Configuration. -/
structure Topology where
  specs : List NodeSpecInput
deriving DecidableEq

/-- The `num_secondary_nodes` values declared by the Primary specs, one entry
per Primary present. -/
def primaryCounts (l : List NodeSpecInput) : List ℕ :=
  l.filterMap (fun s =>
    match s.role with
    | Role.primary k => some k
    | Role.secondary _ => none)

/-- The secondary indices declared by the Secondary specs, in order. -/
def secondaryIndices (l : List NodeSpecInput) : List ℕ :=
  l.filterMap (fun s =>
    match s.role with
    | Role.primary _ => none
    | Role.secondary i => some i)

/-- Modelled from the spec: Topology Configuration (§4.1), whose
implementation is not in the repository sources — a pure function that
accepts when there is exactly one Primary, every Secondary index is unique
and inside `[0, num_secondary_nodes)`, and `num_secondary_nodes` equals the
number of Secondary specs; otherwise it fails with `InvalidTopology` and has
no effect. -/
def validateTopology (l : List NodeSpecInput) : Except TopologyError Topology :=
  match primaryCounts l with
  | [k] =>
    if (secondaryIndices l).Nodup ∧ (∀ i ∈ secondaryIndices l, i < k) ∧
        (secondaryIndices l).length = k then
      Except.ok ⟨l⟩
    else
      Except.error TopologyError.invalidTopology
  | _ => Except.error TopologyError.invalidTopology

/-- The validity condition stated in the spec's words: exactly one Primary;
Secondary indices pairwise distinct, each within `[0, num_secondary_nodes)`
of the Primary; `num_secondary_nodes` equal to the count of Secondary
specs. -/
def validTopologyCond (l : List NodeSpecInput) : Prop :=
  (primaryCounts l).length = 1 ∧
  (secondaryIndices l).Nodup ∧
  (∀ i ∈ secondaryIndices l, i < (primaryCounts l).headD 0) ∧
  (secondaryIndices l).length = (primaryCounts l).headD 0

instance (l : List NodeSpecInput) : Decidable (validTopologyCond l) := by
  unfold validTopologyCond
  infer_instance

/-- C3: Topology Configuration returns the validated `Topology` exactly when
there is one Primary, the Secondary indices are unique and in range, and
`num_secondary_nodes` equals the Secondary count; in every other case —
several Primaries, no Primary, a duplicated or out-of-range index, or a
count mismatch — it fails with `InvalidTopology` (it is a pure function, so
failure has no side effect). -/
theorem validateTopology_ok_iff (l : List NodeSpecInput) :
    (validTopologyCond l → validateTopology l = Except.ok ⟨l⟩) ∧
    (¬ validTopologyCond l →
      validateTopology l = Except.error TopologyError.invalidTopology) := by
  constructor
  · rintro ⟨h1, h2, h3, h4⟩
    obtain ⟨k, hk⟩ : ∃ k, primaryCounts l = [k] := by
      cases hpl : primaryCounts l with
      | nil => rw [hpl] at h1; simp at h1
      | cons a t =>
        cases t with
        | nil => exact ⟨a, rfl⟩
        | cons b t2 => rw [hpl] at h1; simp at h1
    rw [hk] at h3 h4
    simp only [List.headD_cons] at h3 h4
    simp only [validateTopology, hk]
    rw [if_pos ⟨h2, h3, h4⟩]
  · intro hnot
    cases hpl : primaryCounts l with
    | nil => simp [validateTopology, hpl]
    | cons a t =>
      cases t with
      | cons b t2 => simp [validateTopology, hpl]
      | nil =>
        simp only [validateTopology, hpl]
        rw [if_neg]
        intro hcond
        obtain ⟨h2, h3, h4⟩ := hcond
        apply hnot
        refine ⟨by rw [hpl]; rfl, h2, ?_, ?_⟩
        · rw [hpl]
          simpa using h3
        · rw [hpl]
          simpa using h4

/-- Witness for `validateTopology_ok_iff`, which is also the spec's rejection
example: a Primary declaring `num_secondary_nodes = 2` alongside a single
Secondary of index 0 is rejected with `InvalidTopology`. -/
theorem validateTopology_ok_iff_witness :
    ¬ validTopologyCond
        [⟨"P", "sP", Role.primary 2⟩, ⟨"S0", "s0", Role.secondary 0⟩] ∧
    validateTopology
        [⟨"P", "sP", Role.primary 2⟩, ⟨"S0", "s0", Role.secondary 0⟩]
      = Except.error TopologyError.invalidTopology :=
  ⟨by decide,
    (validateTopology_ok_iff
      [⟨"P", "sP", Role.primary 2⟩, ⟨"S0", "s0", Role.secondary 0⟩]).2 (by decide)⟩

/-! ## Launch configuration embedded from `launch/zrh01.launch.py` -/

/-- The ROS parameter dictionary passed to a driver node in
`launch/zrh01.launch.py`.  Keys that appear only in some of the four
dictionaries (`num_secondary_nodes`, `secondary_node_nr`, `trigger_in_mode`)
are `Option`-valued, `none` meaning the key is absent from that node's
dictionary.  `event_message_time_threshold` is the exact decimal `1.0e-3`
written as a rational. -/
structure RosParameters where
  use_multithreading : Bool
  bias_file : String
  camerainfo_url : String
  frame_id : String
  serial : String
  sync_mode : String
  num_secondary_nodes : Option ℕ
  secondary_node_nr : Option ℕ
  trigger_in_mode : Option String
  event_message_time_threshold : ℚ
  save_raw_file : Bool
deriving DecidableEq

/-- A `ComposableNode` description as constructed in
`launch/zrh01.launch.py`. -/
structure ComposableNode where
  package : String
  plugin : String
  name : String
  «namespace» : String
  parameters : RosParameters
  remappings : List (String × String)
  use_intra_process_comms : Bool
deriving DecidableEq

/-- The bias file path, `os.path.join(share_dir, "config", "zrh01.bias")`. -/
def bias_config (share_dir : String) : String :=
  share_dir ++ "/config/zrh01.bias"

/-- Camera 0 of `launch_setup`: the primary node. -/
def cam_0 (share_dir cam_0_str : String) : ComposableNode :=
  { package := "metavision_driver",
    plugin := "metavision_driver::DriverROS2",
    name := cam_0_str,
    «namespace» := "sensors",
    parameters :=
      { use_multithreading := false,
        bias_file := bias_config share_dir,
        camerainfo_url := "",
        frame_id := "cam_0",
        serial := "00050500",
        sync_mode := "primary",
        num_secondary_nodes := some 3,
        secondary_node_nr := none,
        trigger_in_mode := some "external",
        event_message_time_threshold := 1 / 1000,
        save_raw_file := true },
    remappings := [("~/events", cam_0_str ++ "/events")],
    use_intra_process_comms := true }

/-- Camera 1 of `launch_setup`: secondary node number 0. -/
def cam_1 (share_dir cam_0_str cam_1_str : String) : ComposableNode :=
  { package := "metavision_driver",
    plugin := "metavision_driver::DriverROS2",
    name := cam_1_str,
    «namespace» := "sensors",
    parameters :=
      { use_multithreading := false,
        bias_file := bias_config share_dir,
        camerainfo_url := "",
        frame_id := "cam_1",
        serial := "00050243",
        sync_mode := "secondary",
        num_secondary_nodes := none,
        secondary_node_nr := some 0,
        trigger_in_mode := none,
        event_message_time_threshold := 1 / 1000,
        save_raw_file := true },
    remappings := [("~/events", cam_1_str ++ "/events"),
                   ("~/ready", cam_0_str ++ "/ready")],
    use_intra_process_comms := true }

/-- Camera 2 of `launch_setup`: secondary node number 1 (its `frame_id`
parameter is the string `"cam_1"`, as written in the source). -/
def cam_2 (share_dir cam_0_str cam_2_str : String) : ComposableNode :=
  { package := "metavision_driver",
    plugin := "metavision_driver::DriverROS2",
    name := cam_2_str,
    «namespace» := "sensors",
    parameters :=
      { use_multithreading := false,
        bias_file := bias_config share_dir,
        camerainfo_url := "",
        frame_id := "cam_1",
        serial := "00050242",
        sync_mode := "secondary",
        num_secondary_nodes := none,
        secondary_node_nr := some 1,
        trigger_in_mode := none,
        event_message_time_threshold := 1 / 1000,
        save_raw_file := true },
    remappings := [("~/events", cam_2_str ++ "/events"),
                   ("~/ready", cam_0_str ++ "/ready")],
    use_intra_process_comms := true }

/-- Camera 3 of `launch_setup`: secondary node number 2 (its `frame_id`
parameter is the string `"cam_1"`, as written in the source). -/
def cam_3 (share_dir cam_0_str cam_3_str : String) : ComposableNode :=
  { package := "metavision_driver",
    plugin := "metavision_driver::DriverROS2",
    name := cam_3_str,
    «namespace» := "sensors",
    parameters :=
      { use_multithreading := false,
        bias_file := bias_config share_dir,
        camerainfo_url := "",
        frame_id := "cam_1",
        serial := "00050086",
        sync_mode := "secondary",
        num_secondary_nodes := none,
        secondary_node_nr := some 2,
        trigger_in_mode := none,
        event_message_time_threshold := 1 / 1000,
        save_raw_file := true },
    remappings := [("~/events", cam_3_str ++ "/events"),
                   ("~/ready", cam_0_str ++ "/ready")],
    use_intra_process_comms := true }

/-- The node descriptions that `launch_setup` places into the single
`metavision_driver_container`, in source order. -/
def launch_setup (share_dir cam_0_str cam_1_str cam_2_str cam_3_str : String) :
    List ComposableNode :=
  [cam_0 share_dir cam_0_str,
   cam_1 share_dir cam_0_str cam_1_str,
   cam_2 share_dir cam_0_str cam_2_str,
   cam_3 share_dir cam_0_str cam_3_str]

/-- Default value of the `camera_0_name` launch argument. -/
def camera_0_name_default : String := "evs00050500"

/-- Default value of the `camera_1_name` launch argument. -/
def camera_1_name_default : String := "evs00050243"

/-- Default value of the `camera_2_name` launch argument. -/
def camera_2_name_default : String := "evs00050242"

/-- Default value of the `camera_3_name` launch argument. -/
def camera_3_name_default : String := "evs00050086"

/-- The reference topology: `launch_setup` evaluated at the default launch
arguments of `generate_launch_description`. -/
def referenceNodes (share_dir : String) : List ComposableNode :=
  launch_setup share_dir camera_0_name_default camera_1_name_default
    camera_2_name_default camera_3_name_default

/-- The role a node's parameter dictionary declares: `sync_mode` selects the
role, `num_secondary_nodes` / `secondary_node_nr` carry the role's datum. -/
def nodeRole (c : ComposableNode) : Option Role :=
  if c.parameters.sync_mode = "primary" then
    c.parameters.num_secondary_nodes.map Role.primary
  else if c.parameters.sync_mode = "secondary" then
    c.parameters.secondary_node_nr.map Role.secondary
  else
    none

/-- The NodeSpec-like inputs that the launch configuration supplies to
Topology Configuration. -/
def referenceSpecs (share_dir n0 n1 n2 n3 : String) : List NodeSpecInput :=
  (launch_setup share_dir n0 n1 n2 n3).filterMap
    (fun c => (nodeRole c).map (fun r => ⟨c.name, c.parameters.serial, r⟩))

/-- C7: for every share directory and camera names, the reference topology of
`zrh01.launch.py` satisfies the Topology invariant — its four node specs carry
the roles Primary(`num_secondary_nodes = 3`), Secondary 0, Secondary 1,
Secondary 2 (exactly one Primary, `cam_0`; unique secondary indices, each in
`[0, 3)`; `num_secondary_nodes = 3` equals the Secondary count) — and
Topology Configuration accepts it. -/
theorem reference_topology_valid (share_dir n0 n1 n2 n3 : String) :
    (referenceSpecs share_dir n0 n1 n2 n3).map NodeSpecInput.role
      = [Role.primary 3, Role.secondary 0, Role.secondary 1, Role.secondary 2] ∧
    validTopologyCond (referenceSpecs share_dir n0 n1 n2 n3) ∧
    validateTopology (referenceSpecs share_dir n0 n1 n2 n3)
      = Except.ok ⟨referenceSpecs share_dir n0 n1 n2 n3⟩ := by
  refine ⟨rfl, ⟨rfl, ?_, ?_, rfl⟩, rfl⟩
  · show ([0, 1, 2] : List ℕ).Nodup
    decide
  · show ∀ i ∈ ([0, 1, 2] : List ℕ), i < ([3] : List ℕ).headD 0
    decide

/-- C8: for every share directory and camera names, the ready-signal
remapping of `zrh01.launch.py` is a fan-in — each secondary node remaps its
logical `~/ready` output to the primary camera's ready topic
(`cam_0_str + "/ready"`), while the primary's own remappings touch only
`~/events` and leave its `~/ready` output unremapped. -/
theorem ready_remapping_fan_in (share_dir n0 n1 n2 n3 : String) :
    (cam_1 share_dir n0 n1).remappings
      = [("~/events", n1 ++ "/events"), ("~/ready", n0 ++ "/ready")] ∧
    (cam_2 share_dir n0 n2).remappings
      = [("~/events", n2 ++ "/events"), ("~/ready", n0 ++ "/ready")] ∧
    (cam_3 share_dir n0 n3).remappings
      = [("~/events", n3 ++ "/events"), ("~/ready", n0 ++ "/ready")] ∧
    (("~/ready", n0 ++ "/ready") ∈ (cam_1 share_dir n0 n1).remappings ∧
     ("~/ready", n0 ++ "/ready") ∈ (cam_2 share_dir n0 n2).remappings ∧
     ("~/ready", n0 ++ "/ready") ∈ (cam_3 share_dir n0 n3).remappings) ∧
    (cam_0 share_dir n0).remappings = [("~/events", n0 ++ "/events")] ∧
    (∀ p ∈ (cam_0 share_dir n0).remappings, p.1 ≠ "~/ready") := by
  refine ⟨rfl, rfl, rfl,
    ⟨List.mem_cons_of_mem _ (List.mem_cons_self _ _),
     List.mem_cons_of_mem _ (List.mem_cons_self _ _),
     List.mem_cons_of_mem _ (List.mem_cons_self _ _)⟩, rfl, ?_⟩
  intro p hp
  rcases List.mem_singleton.mp hp with rfl
  show "~/events" ≠ "~/ready"
  decide

/-- Counterexample to C9 as stated: the topology descriptor does not supply a
trigger mode for each node — in `zrh01.launch.py` the secondary nodes'
parameter dictionaries (`cam_1`, `cam_2`, `cam_3`) carry no `trigger_in_mode`
key; shown at the default camera names (the share-directory string, here
empty, does not affect the field). -/
theorem descriptor_trigger_mode_missing_on_secondaries :
    ¬ (∀ c ∈ referenceNodes "", c.parameters.trigger_in_mode.isSome = true) := by
  decide

/-- C9 (amended): for every share directory and camera names, each node's
descriptor supplies name, namespace, role (`sync_mode`), serial identifier,
batching threshold, bias file path and raw-capture-persist flag; the Primary
additionally supplies its trigger mode (`trigger_in_mode = "external"`) and
`num_secondary_nodes`; each Secondary supplies a zero-based
`secondary_node_nr` but no trigger mode and no `num_secondary_nodes`. -/
theorem descriptor_fields (share_dir n0 n1 n2 n3 : String) :
    ((cam_0 share_dir n0).name = n0 ∧
     (cam_0 share_dir n0).«namespace» = "sensors" ∧
     (cam_0 share_dir n0).parameters.sync_mode = "primary" ∧
     (cam_0 share_dir n0).parameters.serial = "00050500" ∧
     (cam_0 share_dir n0).parameters.event_message_time_threshold = 1 / 1000 ∧
     (cam_0 share_dir n0).parameters.bias_file = bias_config share_dir ∧
     (cam_0 share_dir n0).parameters.save_raw_file = true ∧
     (cam_0 share_dir n0).parameters.trigger_in_mode = some "external" ∧
     (cam_0 share_dir n0).parameters.num_secondary_nodes = some 3 ∧
     (cam_0 share_dir n0).parameters.secondary_node_nr = none) ∧
    ((cam_1 share_dir n0 n1).name = n1 ∧
     (cam_1 share_dir n0 n1).«namespace» = "sensors" ∧
     (cam_1 share_dir n0 n1).parameters.sync_mode = "secondary" ∧
     (cam_1 share_dir n0 n1).parameters.serial = "00050243" ∧
     (cam_1 share_dir n0 n1).parameters.event_message_time_threshold = 1 / 1000 ∧
     (cam_1 share_dir n0 n1).parameters.bias_file = bias_config share_dir ∧
     (cam_1 share_dir n0 n1).parameters.save_raw_file = true ∧
     (cam_1 share_dir n0 n1).parameters.trigger_in_mode = none ∧
     (cam_1 share_dir n0 n1).parameters.num_secondary_nodes = none ∧
     (cam_1 share_dir n0 n1).parameters.secondary_node_nr = some 0) ∧
    ((cam_2 share_dir n0 n2).name = n2 ∧
     (cam_2 share_dir n0 n2).«namespace» = "sensors" ∧
     (cam_2 share_dir n0 n2).parameters.sync_mode = "secondary" ∧
     (cam_2 share_dir n0 n2).parameters.serial = "00050242" ∧
     (cam_2 share_dir n0 n2).parameters.event_message_time_threshold = 1 / 1000 ∧
     (cam_2 share_dir n0 n2).parameters.bias_file = bias_config share_dir ∧
     (cam_2 share_dir n0 n2).parameters.save_raw_file = true ∧
     (cam_2 share_dir n0 n2).parameters.trigger_in_mode = none ∧
     (cam_2 share_dir n0 n2).parameters.num_secondary_nodes = none ∧
     (cam_2 share_dir n0 n2).parameters.secondary_node_nr = some 1) ∧
    ((cam_3 share_dir n0 n3).name = n3 ∧
     (cam_3 share_dir n0 n3).«namespace» = "sensors" ∧
     (cam_3 share_dir n0 n3).parameters.sync_mode = "secondary" ∧
     (cam_3 share_dir n0 n3).parameters.serial = "00050086" ∧
     (cam_3 share_dir n0 n3).parameters.event_message_time_threshold = 1 / 1000 ∧
     (cam_3 share_dir n0 n3).parameters.bias_file = bias_config share_dir ∧
     (cam_3 share_dir n0 n3).parameters.save_raw_file = true ∧
     (cam_3 share_dir n0 n3).parameters.trigger_in_mode = none ∧
     (cam_3 share_dir n0 n3).parameters.num_secondary_nodes = none ∧
     (cam_3 share_dir n0 n3).parameters.secondary_node_nr = some 2) := by
  refine ⟨?_, ?_, ?_, ?_⟩ <;>
    exact ⟨rfl, rfl, rfl, rfl, rfl, rfl, rfl, rfl, rfl, rfl⟩

/-- C10: for every share directory, at the default launch arguments the four
nodes' serial identifiers are pairwise distinct and their names are pairwise
distinct, but the frame ids are not — the three secondaries all declare
`frame_id = "cam_1"` — so frame id does not uniquely identify a node at the
configuration interface. -/
theorem serials_names_unique_frame_ids_not (share_dir : String) :
    ((referenceNodes share_dir).map
        (fun c => c.parameters.serial)).Pairwise (· ≠ ·) ∧
    ((referenceNodes share_dir).map ComposableNode.name).Pairwise (· ≠ ·) ∧
    (referenceNodes share_dir).map (fun c => c.parameters.frame_id)
      = ["cam_0", "cam_1", "cam_1", "cam_1"] ∧
    ¬ ((referenceNodes share_dir).map
        (fun c => c.parameters.frame_id)).Pairwise (· ≠ ·) := by
  refine ⟨?_, ?_, rfl, ?_⟩
  · show (["00050500", "00050243", "00050242", "00050086"] :
      List String).Pairwise (· ≠ ·)
    decide
  · show (["evs00050500", "evs00050243", "evs00050242", "evs00050086"] :
      List String).Pairwise (· ≠ ·)
    decide
  · intro hpair
    have hmap : (referenceNodes share_dir).map (fun c => c.parameters.frame_id)
        = ["cam_0", "cam_1", "cam_1", "cam_1"] := rfl
    rw [hmap] at hpair
    exact absurd hpair (by decide)
